import Mathlib

/-!
Shallow embedding of the Live Market Data Synchronization Subsystem of
`trading_platform_v5`: the ingestion-side bar listener
(`ingestion_service/live_data_ingestor.py`) and the client-side
synchronization state machine (`frontend/static/js/app/6-api-service.js`
together with the scroll trigger in `7-event-listeners.js`).

Feed and server interactions are passed to each operation as explicit
arguments; the outward effects of a run (cache writes, publishes, log
events, network requests, error toasts) are returned as event lists.
Prices are modelled as integers: the embedded code only compares them
with zero, compares close against open, and passes them through.
-/

namespace TP

/-! ## Ingestion side: `LiveBarListener` of `live_data_ingestor.py` -/

/-- Raw feed record, the numpy record handed to the listener by the feed:
fields `symbol`, packed `date`/`time`, OHLC prices, period volume. -/
structure RawBar where
  symbol : String
  date : Nat
  time : Nat
  open_p : Int
  high_p : Int
  low_p : Int
  close_p : Int
  prd_vlm : Int
  deriving DecidableEq, Repr

/-- Canonical bar dictionary built by `_prepare_bar_data`: keys
`timestamp`, `open`, `high`, `low`, `close`, `volume` (the `open` key is
spelled `openv` because `open` is a Lean keyword). -/
structure BarDict where
  timestamp : Int
  openv : Int
  high : Int
  low : Int
  close : Int
  volume : Int
  deriving DecidableEq, Repr

/-- Embedding of `LiveBarListener._prepare_bar_data`.  The wall-clock to
UTC conversion (`date_us_to_datetime` composed with the fixed
`America/New_York` zone attachment) is library code outside the
repository; it enters the model as the parameter `toUtc` applied to the
record's packed date and time fields. -/
def prepare_bar_data (toUtc : Nat → Nat → Int) (bar : RawBar) : BarDict :=
  ⟨toUtc bar.date bar.time, bar.open_p, bar.high_p, bar.low_p, bar.close_p, bar.prd_vlm⟩

/-- Mutable state of a `LiveBarListener`: the `completed_lookbacks` set of
symbols whose live transition has been logged. -/
structure ListenerState where
  completedLookbacks : List String
  deriving DecidableEq, Repr

/-- Listener state at construction: `completed_lookbacks = set()`. -/
def initListener : ListenerState := ⟨[]⟩

/-- Outward effect of the listener on Redis and on the log: a cache list
append (`rpush`), a TTL refresh (`expire`), a pub/sub `publish`, or the
"Lookback complete" log line for a symbol. -/
inductive Event where
  | cacheAppend (key : String) (bar : BarDict)
  | cacheExpire (key : String) (seconds : Nat)
  | publish (channel : String) (bar : BarDict)
  | lookbackLog (symbol : String)
  deriving DecidableEq, Repr

/-- Embedding of `LiveBarListener._check_and_log_lookback_completion`:
log exactly once per symbol, recording the symbol in the set. -/
def check_and_log_lookback_completion (s : ListenerState) (symbol : String) :
    ListenerState × List Event :=
  if symbol ∈ s.completedLookbacks then (s, [])
  else (⟨symbol :: s.completedLookbacks⟩, [Event.lookbackLog symbol])

/-- Embedding of `LiveBarListener.process_history_bar`: skip the record
when `high_p` and `low_p` are both zero; otherwise prepare the bar, `rpush`
it onto `intraday_bars:<symbol>` and refresh the key's 86400-second TTL.
History records are never published. -/
def process_history_bar (toUtc : Nat → Nat → Int) (s : ListenerState) (bar : RawBar) :
    ListenerState × List Event :=
  if bar.high_p = 0 ∧ bar.low_p = 0 then (s, [])
  else
    let d := prepare_bar_data toUtc bar
    let key := "intraday_bars:" ++ bar.symbol
    (s, [Event.cacheAppend key d, Event.cacheExpire key 86400])

/-- Embedding of `LiveBarListener.process_latest_bar_update`, the first
update-phase message after the history stream (the backfill-end
sentinel): run the idempotent lookback-completion check for the record's
symbol.  The `super()` call only prints to the console. -/
def process_latest_bar_update (s : ListenerState) (bar : RawBar) :
    ListenerState × List Event :=
  check_and_log_lookback_completion s bar.symbol

/-- Embedding of `LiveBarListener.process_live_bar`: prepare the bar, run
the idempotent lookback-completion check, publish to
`live_bars:<symbol>`, then cache to `intraday_bars:<symbol>` with a TTL
refresh.  There is no placeholder (`high_p = low_p = 0`) check on this
path. -/
def process_live_bar (toUtc : Nat → Nat → Int) (s : ListenerState) (bar : RawBar) :
    ListenerState × List Event :=
  let d := prepare_bar_data toUtc bar
  let key := "intraday_bars:" ++ bar.symbol
  let channel := "live_bars:" ++ bar.symbol
  let r := check_and_log_lookback_completion s bar.symbol
  (r.1, r.2 ++ [Event.publish channel d, Event.cacheAppend key d, Event.cacheExpire key 86400])

/-- One inbound feed message, tagged the way `BarConn` dispatches it to
the listener callbacks. -/
inductive FeedMsg where
  | history (bar : RawBar)
  | latestUpdate (bar : RawBar)
  | live (bar : RawBar)
  deriving DecidableEq, Repr

/-- Dispatch of one feed message to the matching listener callback. -/
def processMsg (toUtc : Nat → Nat → Int) (s : ListenerState) :
    FeedMsg → ListenerState × List Event
  | FeedMsg.history bar => process_history_bar toUtc s bar
  | FeedMsg.latestUpdate bar => process_latest_bar_update s bar
  | FeedMsg.live bar => process_live_bar toUtc s bar

/-- Run the listener over a whole record sequence, concatenating the
emitted events in delivery order. -/
def processFeed (toUtc : Nat → Nat → Int) (s : ListenerState) :
    List FeedMsg → ListenerState × List Event
  | [] => (s, [])
  | m :: ms =>
    let r := processMsg toUtc s m
    let rest := processFeed toUtc r.1 ms
    (rest.1, r.2 ++ rest.2)

/-- Recognizer for the "Lookback complete" log event of one symbol. -/
def isLookbackLogFor (sym : String) : Event → Bool
  | Event.lookbackLog s => s == sym
  | _ => false

/-- Number of live-transition log events for a symbol in an event list. -/
def logCount (evs : List Event) (sym : String) : Nat :=
  (evs.filter (isLookbackLogFor sym)).length

/-- Recognizer for pub/sub publish events. -/
def isPublishEvent : Event → Bool
  | Event.publish _ _ => true
  | _ => false

/-- Timestamps appended to one cache list, in append order. -/
def cacheTimestamps (evs : List Event) (key : String) : List Int :=
  evs.filterMap fun e =>
    match e with
    | Event.cacheAppend k b => if k == key then some b.timestamp else none
    | _ => none

/-- A feed message that drives the live-transition check for a symbol:
the backfill-end sentinel or a live bar of that symbol. -/
def triggersFor (sym : String) : FeedMsg → Bool
  | FeedMsg.latestUpdate bar => bar.symbol == sym
  | FeedMsg.live bar => bar.symbol == sym
  | FeedMsg.history _ => false

/-- Modelled from the spec: `main` of `live_data_ingestor.py` attaches
pyiqfeed's `VerboseBarListener` (vendored library code of the repository,
not under src/), whose callbacks only print the records; they perform no
cache write, no publish and no transition log.  The `LiveBarListener`
construction in `main` is commented out. -/
def verboseListenerEvents (msgs : List FeedMsg) : List Event :=
  msgs.foldl (fun evs _ => evs) []

/-- Timestamp conversion used by concrete scenarios: the bar's raw `time`
field read as the UTC second. -/
def timeAsUtc : Nat → Nat → Int := fun _ t => (t : Int)

/-- A raw AAPL bar at second `t` with all four prices `p` and volume 1. -/
def aaplBar (t : Nat) (p : Int) : RawBar := ⟨"AAPL", 0, t, p, p, p, p, 1⟩

/-- A placeholder record: high and low both exactly zero. -/
def zeroBar : RawBar := ⟨"AAPL", 0, 5, 0, 0, 0, 0, 0⟩

/-- The C8 scenario feed: two history bars at t = 1, 2, then the
backfill-end sentinel, then one live bar at t = 3. -/
def c8Feed : List FeedMsg :=
  [FeedMsg.history (aaplBar 1 10), FeedMsg.history (aaplBar 2 10),
   FeedMsg.latestUpdate (aaplBar 3 10), FeedMsg.live (aaplBar 3 10)]

/-! ## Client side: the synchronization state machine of
`frontend/static/js/app/6-api-service.js` -/

/-- Server candle as delivered by the historical API and the live
gateway: keys `unix_timestamp`, `open`, `high`, `low`, `close`,
`volume` (`open` spelled `openv`). -/
structure Candle where
  unix_timestamp : Int
  openv : Int
  high : Int
  low : Int
  close : Int
  volume : Int
  deriving DecidableEq, Repr

/-- Chart-format bar `\x7b time, open, high, low, close \x7d` built by the
client's `map` conversions. -/
structure ChartPoint where
  time : Int
  openv : Int
  high : Int
  low : Int
  close : Int
  deriving DecidableEq, Repr

/-- Volume-format bar `\x7b time, value, color \x7d` built by the client's
`map` conversions; `color` carries the close-vs-open banding. -/
structure VolumePoint where
  time : Int
  value : Int
  color : String
  deriving DecidableEq, Repr

/-- The candle-to-chart conversion used by every client merge path. -/
def toChartPoint (c : Candle) : ChartPoint :=
  ⟨c.unix_timestamp, c.openv, c.high, c.low, c.close⟩

/-- Volume color banding: `volUpColorInput.value + '80'` when
`close >= open`, else `volDownColorInput.value + '80'`. -/
def volumeColor (upColor downColor : String) (c : Candle) : String :=
  if c.openv ≤ c.close then upColor ++ "80" else downColor ++ "80"

/-- The candle-to-volume conversion used by every client merge path. -/
def toVolumePoint (upColor downColor : String) (c : Candle) : VolumePoint :=
  ⟨c.unix_timestamp, c.volume, volumeColor upColor downColor c⟩

/-- Payload last handed to `updateDataSummary`: either a chart bar
(`allChartData.at(-1)` after an initial load) or a raw live candle. -/
inductive SummaryPayload where
  | fromChart (p : ChartPoint)
  | fromBar (c : Candle)
  deriving DecidableEq, Repr

/-- Client chart state: the fields of `state` in `2-state.js` that the
embedded operations read or write, plus the contents the chart series
objects currently hold (`mainSeries.setData` / `volumeSeries.setData` /
`update` targets) and the data-summary display. -/
structure ClientState where
  sessionToken : Option String
  chartRequestId : Option String
  chartCurrentOffset : Int
  allDataLoaded : Bool
  currentlyFetching : Bool
  allChartData : List ChartPoint
  allVolumeData : List VolumePoint
  mainSeriesData : List ChartPoint
  volumeSeriesData : List VolumePoint
  dataSummary : Option SummaryPayload
  volUpColor : String
  volDownColor : String
  deriving DecidableEq, Repr

/-- JavaScript truthiness of an optional string: `null`/`undefined` and
the empty string are falsy. -/
def jsTruthyStr : Option String → Bool
  | none => false
  | some s => !(s == "")

/-- The fixed backward-pagination chunk size (`DATA_CHUNK_SIZE`). -/
def DATA_CHUNK_SIZE : Int := 5000

/-- One `GET /historical/chunk` request issued by the client. -/
structure ChunkRequest where
  requestId : String
  offset : Int
  limit : Int
  deriving DecidableEq, Repr

/-- Result of one awaited run of a client fetch operation: the state it
leaves behind, the chunk requests and initial-history requests it issued
on the network, and the error toasts it surfaced. -/
structure FetchOutcome where
  state : ClientState
  chunkRequests : List ChunkRequest
  initialRequests : Nat
  errors : List String
  deriving DecidableEq, Repr

/-- An outcome that issued nothing and changed nothing. -/
def noOutcome (s : ClientState) : FetchOutcome := ⟨s, [], 0, []⟩

/-- Server behavior for one chunk fetch: a JSON body
`\x7b offset, candles \x7d` or a transport/HTTP failure. -/
inductive ChunkResult where
  | success (offset : Int) (candles : List Candle)
  | failure (detail : String)
  deriving DecidableEq, Repr

/-- Server JSON body for the initial historical request. -/
structure InitialResponse where
  request_id : Option String
  offset : Int
  total_available : Int
  is_partial : Bool
  candles : List Candle
  message : String
  deriving DecidableEq, Repr

/-- Server behavior for one initial historical fetch. -/
inductive InitialResult where
  | success (resp : InitialResponse)
  | failure (detail : String)
  deriving DecidableEq, Repr

/-- Embedding of `fetchAndPrependDataChunk`.  The awaited server
interaction is the `server` argument; the run is modelled atomically, so
the transient `currentlyFetching := true` inside the body is visible only
through its `finally` value. -/
def fetchAndPrependDataChunk (s : ClientState) (server : ChunkResult) : FetchOutcome :=
  let nextOffset := s.chartCurrentOffset - DATA_CHUNK_SIZE
  if nextOffset < 0 then
    ⟨{ s with allDataLoaded := true }, [], 0, []⟩
  else
    let req : ChunkRequest := ⟨s.chartRequestId.getD "", nextOffset, DATA_CHUNK_SIZE⟩
    match server with
    | ChunkResult.failure _ =>
      ⟨{ s with currentlyFetching := false }, [req], 0, ["Could not load older data."]⟩
    | ChunkResult.success off candles =>
      if 0 < candles.length then
        let chartFormattedData := candles.map toChartPoint
        let volumeFormattedData := candles.map (toVolumePoint s.volUpColor s.volDownColor)
        let newChart := chartFormattedData ++ s.allChartData
        let newVolume := volumeFormattedData ++ s.allVolumeData
        ⟨{ s with
            allChartData := newChart
            allVolumeData := newVolume
            mainSeriesData := newChart
            volumeSeriesData := newVolume
            chartCurrentOffset := off
            allDataLoaded := if off = 0 then true else s.allDataLoaded
            currentlyFetching := false },
         [req], 0, []⟩
      else
        ⟨{ s with allDataLoaded := true, currentlyFetching := false }, [req], 0, []⟩

/-- Embedding of `loadInitialChart`: a session-token check, then the
awaited initial fetch; no other guard precedes the fetch. -/
def loadInitialChart (s : ClientState) (server : InitialResult) : FetchOutcome :=
  if !(jsTruthyStr s.sessionToken) then noOutcome s
  else
    match server with
    | InitialResult.failure _ =>
      ⟨{ s with allDataLoaded := false, currentlyFetching := false }, [], 1,
       ["Failed to fetch initial chart data."]⟩
    | InitialResult.success resp =>
      if !(jsTruthyStr resp.request_id) || resp.candles.length = 0 then
        ⟨{ s with allDataLoaded := false, currentlyFetching := false,
                  mainSeriesData := [], volumeSeriesData := [] },
         [], 1, []⟩
      else
        let newChart := resp.candles.map toChartPoint
        let newVolume := resp.candles.map (toVolumePoint s.volUpColor s.volDownColor)
        ⟨{ s with
            chartRequestId := resp.request_id
            chartCurrentOffset := resp.offset
            allDataLoaded := decide (resp.offset = 0) && !resp.is_partial
            allChartData := newChart
            allVolumeData := newVolume
            mainSeriesData := newChart
            volumeSeriesData := newVolume
            dataSummary := (newChart.getLast?).map SummaryPayload.fromChart
            currentlyFetching := false },
         [], 1, []⟩

/-- Embedding of the `subscribeVisibleLogicalRangeChange` handler in
`7-event-listeners.js`: the only call site of `fetchAndPrependDataChunk`,
guarded by `currentlyFetching`, `allDataLoaded` and `chartRequestId`, and
by the visible range starting within 15 logical bars. -/
def onVisibleRangeChange (s : ClientState) (newVisibleRange : Option (Int × Int))
    (server : ChunkResult) : FetchOutcome :=
  match newVisibleRange with
  | none => noOutcome s
  | some vr =>
    if s.currentlyFetching || s.allDataLoaded || !(jsTruthyStr s.chartRequestId) then
      noOutcome s
    else if vr.1 < 15 then fetchAndPrependDataChunk s server
    else noOutcome s

/-! ## Client side: the live WebSocket connection -/

/-- The module-level `liveDataSocket` reference plus a ledger of sockets
whose `close()` has been called; `nextSocketId` names fresh sockets. -/
structure LiveState where
  socket : Option Nat
  closedSockets : List Nat
  nextSocketId : Nat
  deriving DecidableEq, Repr

/-- Embedding of `disconnectFromLiveDataFeed`: when a socket exists,
detach its close handler, close it and null the reference; a no-op
otherwise. -/
def disconnectFromLiveDataFeed (ls : LiveState) : LiveState :=
  match ls.socket with
  | some sid => { ls with socket := none, closedSockets := ls.closedSockets ++ [sid] }
  | none => ls

/-- Result of `connectToLiveDataFeed`: the live-socket state it leaves
behind and whether the call was refused with the missing-timezone error
toast. -/
structure ConnectOutcome where
  live : LiveState
  refused : Bool
  deriving DecidableEq, Repr

/-- Embedding of `connectToLiveDataFeed`: always disconnect first, then
refuse when the timezone selection is empty, else open a fresh socket. -/
def connectToLiveDataFeed (ls : LiveState) (timezone : String) : ConnectOutcome :=
  let ls1 := disconnectFromLiveDataFeed ls
  if timezone == "" then ⟨ls1, true⟩
  else ⟨{ ls1 with socket := some ls1.nextSocketId, nextSocketId := ls1.nextSocketId + 1 }, false⟩

/-! ## Client side: the live-message merge paths -/

/-- One message arriving on the live socket: a bar array (backfill
burst) or a `\x7b current_bar: ... \x7d` incremental update. -/
inductive LiveMsg where
  | backfill (data : List Candle)
  | incremental (current_bar : Candle)
  deriving DecidableEq, Repr

/-- The `lastHistoricalTime` expression of the backfill merge:
`allChartData.length > 0 ? allChartData[allChartData.length - 1].time : 0`. -/
def lastTime (l : List ChartPoint) : Int :=
  match l.getLast? with
  | some p => p.time
  | none => 0

/-- Modelled from the spec: the Lightweight Charts `series.update` method
(charting-library code, not part of this repository) applies a bar with
update-or-append semantics — "if its timestamp matches the buffer's last
entry, that entry is replaced in place (the current bar is still
forming); if its timestamp is newer, it is appended as a new bar".  An
update older than the last bar is rejected by the library and modelled
as leaving the data unchanged. -/
def seriesUpdate {α : Type} (timeOf : α → Int) (data : List α) (point : α) : List α :=
  match data.getLast? with
  | none => [point]
  | some lastp =>
    if timeOf point = timeOf lastp then data.dropLast ++ [point]
    else if timeOf lastp < timeOf point then data ++ [point]
    else data

/-- Embedding of the `socket.onmessage` handler installed by
`connectToLiveDataFeed`: the backfill-burst filter-and-append path for
bar arrays, and the `series.update` / `updateDataSummary` path for
incremental `current_bar` messages. -/
def handleLiveMessage (s : ClientState) (msg : LiveMsg) : ClientState :=
  match msg with
  | LiveMsg.backfill data =>
    if data.length = 0 then s
    else
      let formattedBackfillBars := data.map toChartPoint
      let formattedVolumeBars := data.map (toVolumePoint s.volUpColor s.volDownColor)
      let lastHistoricalTime := lastTime s.allChartData
      let newOhlcBars := formattedBackfillBars.filter fun d => decide (lastHistoricalTime < d.time)
      let newVolumeBars := formattedVolumeBars.filter fun d => decide (lastHistoricalTime < d.time)
      if 0 < newOhlcBars.length then
        { s with
          allChartData := s.allChartData ++ newOhlcBars
          allVolumeData := s.allVolumeData ++ newVolumeBars
          mainSeriesData := s.allChartData ++ newOhlcBars
          volumeSeriesData := s.allVolumeData ++ newVolumeBars }
      else s
  | LiveMsg.incremental cb =>
    { s with
      mainSeriesData := seriesUpdate ChartPoint.time s.mainSeriesData (toChartPoint cb)
      volumeSeriesData :=
        seriesUpdate VolumePoint.time s.volumeSeriesData
          (toVolumePoint s.volUpColor s.volDownColor cb)
      dataSummary := some (SummaryPayload.fromBar cb) }

/-- Fold a sequence of incremental `current_bar` messages over the
client state. -/
def applyIncrementals (s : ClientState) (cbs : List Candle) : ClientState :=
  cbs.foldl (fun st cb => handleLiveMessage st (LiveMsg.incremental cb)) s

/-! ## Concrete fixtures for counterexamples and witnesses -/

/-- Last element of an integer list, with the JavaScript default 0 for
the empty list. -/
def lastD (l : List Int) : Int := l.getLast?.getD 0

/-- A baseline client state: live session, request window `r1` at offset
10000, empty buffers. -/
def baseClient : ClientState :=
  ⟨some "tok", some "r1", 10000, false, false, [], [], [], [], none, "u", "d"⟩

/-- A candle at second `t` with open = close = 1, high 2, low 0,
volume 9. -/
def candleAt (t : Int) : Candle := ⟨t, 1, 2, 0, 1, 9⟩

/-- The two-bar backfill burst used by the C6 witness. -/
def burstData : List Candle := [candleAt 1, candleAt 2]

/-- A client state whose series hold exactly one bar at t = 100. -/
def seriesAt100 : ClientState :=
  { baseClient with
    mainSeriesData := [toChartPoint (candleAt 100)]
    volumeSeriesData := [toVolumePoint "u" "d" (candleAt 100)] }

/-- A live-socket state currently holding socket 7. -/
def liveWith7 : LiveState := ⟨some 7, [], 8⟩

end TP

/-! ## Theorems -/

namespace TP

/-! ### Helper lemmas about the listener's event stream -/

theorem logCount_append (a b : List Event) (sym : String) :
    logCount (a ++ b) sym = logCount a sym + logCount b sym := by
  simp [logCount, List.filter_append]
theorem logCount_check (s : ListenerState) (symbol sym : String) :
    logCount (check_and_log_lookback_completion s symbol).2 sym =
      if symbol ∈ s.completedLookbacks then 0 else if symbol = sym then 1 else 0 := by
  by_cases hmem : symbol ∈ s.completedLookbacks
  · simp [check_and_log_lookback_completion, hmem, logCount]
  · by_cases hsym : symbol = sym
    · subst hsym
      simp [check_and_log_lookback_completion, hmem, logCount, isLookbackLogFor]
    · simp [check_and_log_lookback_completion, hmem, logCount, isLookbackLogFor, hsym]

theorem mem_check_state (s : ListenerState) (symbol sym : String) :
    sym ∈ (check_and_log_lookback_completion s symbol).1.completedLookbacks ↔
      sym ∈ s.completedLookbacks ∨ symbol = sym := by
  by_cases hmem : symbol ∈ s.completedLookbacks
  · simp only [check_and_log_lookback_completion, if_pos hmem]
    constructor
    · exact Or.inl
    · rintro (h | h)
      · exact h
      · exact h ▸ hmem
  · simp only [check_and_log_lookback_completion, if_neg hmem, List.mem_cons]
    constructor
    · rintro (h | h)
      · exact Or.inr h.symm
      · exact Or.inl h
    · rintro (h | h)
      · exact Or.inr h
      · exact Or.inl h.symm

/-- Effect of one dispatched message on the per-symbol log count and on
membership in `completed_lookbacks`. -/
theorem processMsg_spec (toUtc : Nat → Nat → Int) (s : ListenerState) (m : FeedMsg)
    (sym : String) :
    logCount (processMsg toUtc s m).2 sym =
      (if triggersFor sym m = true ∧ sym ∉ s.completedLookbacks then 1 else 0) ∧
    (sym ∈ (processMsg toUtc s m).1.completedLookbacks ↔
      sym ∈ s.completedLookbacks ∨ triggersFor sym m = true) := by
  cases m with
  | history bar =>
    constructor
    · by_cases hzero : bar.high_p = 0 ∧ bar.low_p = 0 <;>
        simp [processMsg, process_history_bar, hzero, logCount, isLookbackLogFor, triggersFor]
    · by_cases hzero : bar.high_p = 0 ∧ bar.low_p = 0 <;>
        simp [processMsg, process_history_bar, hzero, triggersFor]
  | latestUpdate bar =>
    refine ⟨?_, ?_⟩
    · rw [show (processMsg toUtc s (FeedMsg.latestUpdate bar)).2 =
          (check_and_log_lookback_completion s bar.symbol).2 from rfl, logCount_check]
      by_cases hsym : bar.symbol = sym
      · subst hsym
        by_cases hmem : bar.symbol ∈ s.completedLookbacks <;>
          simp [hmem, triggersFor]
      · have ht : triggersFor sym (FeedMsg.latestUpdate bar) = false := by
          simp [triggersFor, hsym]
        by_cases hmem : bar.symbol ∈ s.completedLookbacks <;> simp [hmem, hsym, ht]
    · rw [show (processMsg toUtc s (FeedMsg.latestUpdate bar)).1 =
          (check_and_log_lookback_completion s bar.symbol).1 from rfl, mem_check_state]
      simp [triggersFor]
  | live bar =>
    refine ⟨?_, ?_⟩
    · have h2 : logCount (processMsg toUtc s (FeedMsg.live bar)).2 sym =
          logCount (check_and_log_lookback_completion s bar.symbol).2 sym := by
        simp [processMsg, process_live_bar, logCount, List.filter_append, isLookbackLogFor]
      rw [h2, logCount_check]
      by_cases hsym : bar.symbol = sym
      · subst hsym
        by_cases hmem : bar.symbol ∈ s.completedLookbacks <;>
          simp [hmem, triggersFor]
      · have ht : triggersFor sym (FeedMsg.live bar) = false := by
          simp [triggersFor, hsym]
        by_cases hmem : bar.symbol ∈ s.completedLookbacks <;> simp [hmem, hsym, ht]
    · rw [show (processMsg toUtc s (FeedMsg.live bar)).1 =
          (check_and_log_lookback_completion s bar.symbol).1 from rfl, mem_check_state]
      simp [triggersFor]

/-- Exactly-once invariant of the listener over a whole feed, generalized
over the start state. -/
theorem processFeed_log_spec (toUtc : Nat → Nat → Int) (msgs : List FeedMsg)
    (s : ListenerState) (sym : String) :
    logCount (processFeed toUtc s msgs).2 sym =
      (if sym ∈ s.completedLookbacks then 0
       else if msgs.any (triggersFor sym) then 1 else 0) ∧
    (sym ∈ (processFeed toUtc s msgs).1.completedLookbacks ↔
      sym ∈ s.completedLookbacks ∨ msgs.any (triggersFor sym) = true) := by
  induction msgs generalizing s with
  | nil => simp [processFeed, logCount]
  | cons m ms ih =>
    have hstep := processMsg_spec toUtc s m sym
    have hrest := ih (processMsg toUtc s m).1
    have hfeed : processFeed toUtc s (m :: ms) =
        ((processFeed toUtc (processMsg toUtc s m).1 ms).1,
         (processMsg toUtc s m).2 ++ (processFeed toUtc (processMsg toUtc s m).1 ms).2) := rfl
    rw [hfeed]
    constructor
    · rw [logCount_append, hstep.1, hrest.1]
      by_cases hs : sym ∈ s.completedLookbacks
      · have hs2 : sym ∈ (processMsg toUtc s m).1.completedLookbacks :=
          hstep.2.mpr (Or.inl hs)
        simp [hs, hs2]
      · by_cases htr : triggersFor sym m = true
        · have hs2 : sym ∈ (processMsg toUtc s m).1.completedLookbacks :=
            hstep.2.mpr (Or.inr htr)
          simp [hs, hs2, htr]
        · have hs2 : sym ∉ (processMsg toUtc s m).1.completedLookbacks := by
            intro h
            rcases hstep.2.mp h with h' | h'
            · exact hs h'
            · exact htr h'
          simp [hs, hs2, htr, List.any_cons]
    · rw [hrest.2, hstep.2, List.any_cons]
      constructor
      · rintro ((h | h) | h)
        · exact Or.inl h
        · exact Or.inr (by simp [h])
        · exact Or.inr (by simp [h])
      · rintro (h | h)
        · exact Or.inl (Or.inl h)
        · rcases Bool.or_eq_true _ _ |>.mp h with h' | h'
          · exact Or.inl (Or.inr h')
          · exact Or.inr h'

/-- C2: for every symbol and every feed sequence containing at least one
sentinel (`process_latest_bar_update`) or live-bar (`process_live_bar`)
message for that symbol, the listener started fresh emits the
"Lookback complete" live-transition log for that symbol exactly once. -/
theorem c2_live_transition_logged_exactly_once (toUtc : Nat → Nat → Int)
    (msgs : List FeedMsg) (sym : String)
    (h : msgs.any (triggersFor sym) = true) :
    logCount (processFeed toUtc initListener msgs).2 sym = 1 := by
  have hspec := (processFeed_log_spec toUtc msgs initListener sym).1
  simpa [initListener, h] using hspec

/-- Witness for C2: the spec's test — sentinel then three live bars for
AAPL — yields exactly one live-transition log. -/
theorem c2_witness :
    ([FeedMsg.latestUpdate (aaplBar 3 10), FeedMsg.live (aaplBar 3 10),
      FeedMsg.live (aaplBar 4 10), FeedMsg.live (aaplBar 5 10)].any
        (triggersFor "AAPL") = true) ∧
    logCount (processFeed timeAsUtc initListener
      [FeedMsg.latestUpdate (aaplBar 3 10), FeedMsg.live (aaplBar 3 10),
       FeedMsg.live (aaplBar 4 10), FeedMsg.live (aaplBar 5 10)]).2 "AAPL" = 1 :=
  ⟨by decide,
   c2_live_transition_logged_exactly_once timeAsUtc
     [FeedMsg.latestUpdate (aaplBar 3 10), FeedMsg.live (aaplBar 3 10),
      FeedMsg.live (aaplBar 4 10), FeedMsg.live (aaplBar 5 10)] "AAPL" (by decide)⟩

/-- C1 is false on the live path: `process_live_bar` has no placeholder
check, so a record with high = low = 0 is still published to the
symbol's broadcast topic and appended to the symbol's cache list. -/
theorem c1_counterexample_live_path_processes_zero_bar :
    zeroBar.high_p = 0 ∧ zeroBar.low_p = 0 ∧
    ((process_live_bar timeAsUtc initListener zeroBar).2.filter isPublishEvent).length = 1 ∧
    Event.cacheAppend "intraday_bars:AAPL" (prepare_bar_data timeAsUtc zeroBar)
      ∈ (process_live_bar timeAsUtc initListener zeroBar).2 := by
  refine ⟨rfl, rfl, rfl, ?_⟩
  decide

/-- C1 amended: a record whose high and low are both exactly zero is
rejected on the history path only — `process_history_bar` neither
caches nor publishes it and leaves the listener state unchanged — while
`process_live_bar` still publishes it to the symbol's broadcast topic
and appends it to the symbol's cache list. -/
theorem c1_amended_zero_bar_rejected_on_history_path_only
    (toUtc : Nat → Nat → Int) (s : ListenerState) (bar : RawBar)
    (h : bar.high_p = 0 ∧ bar.low_p = 0) :
    process_history_bar toUtc s bar = (s, []) ∧
    (process_live_bar toUtc s bar).2.filter isPublishEvent =
      [Event.publish ("live_bars:" ++ bar.symbol) (prepare_bar_data toUtc bar)] ∧
    Event.cacheAppend ("intraday_bars:" ++ bar.symbol) (prepare_bar_data toUtc bar)
      ∈ (process_live_bar toUtc s bar).2 := by
  refine ⟨by simp [process_history_bar, h], ?_, ?_⟩
  · by_cases hmem : bar.symbol ∈ s.completedLookbacks <;>
      simp [process_live_bar, check_and_log_lookback_completion, hmem,
        isPublishEvent, List.filter_append]
  · by_cases hmem : bar.symbol ∈ s.completedLookbacks <;>
      simp [process_live_bar, check_and_log_lookback_completion, hmem]

/-- Witness for the amended C1 at the concrete placeholder record. -/
theorem c1_amended_witness :
    (zeroBar.high_p = 0 ∧ zeroBar.low_p = 0) ∧
    (process_history_bar timeAsUtc initListener zeroBar = (initListener, []) ∧
     (process_live_bar timeAsUtc initListener zeroBar).2.filter isPublishEvent =
       [Event.publish ("live_bars:" ++ zeroBar.symbol) (prepare_bar_data timeAsUtc zeroBar)] ∧
     Event.cacheAppend ("intraday_bars:" ++ zeroBar.symbol) (prepare_bar_data timeAsUtc zeroBar)
       ∈ (process_live_bar timeAsUtc initListener zeroBar).2) :=
  ⟨by decide,
   c1_amended_zero_bar_rejected_on_history_path_only timeAsUtc initListener zeroBar (by decide)⟩

/-- C8: the end-to-end scenario — two history bars at t = 1, 2, the
backfill-end sentinel, one live bar at t = 3 for a watched symbol.
The listener the program actually attaches in `main` is pyiqfeed's
print-only `VerboseBarListener` (the `LiveBarListener` construction is
commented out), so the program produces no cache entry, no publish and
no transition log; the `LiveBarListener` this claim and the README
describe would produce exactly the claimed cache list [1, 2, 3], one
publish and one transition log. -/
theorem c8_scenario_main_attaches_print_only_listener :
    verboseListenerEvents c8Feed = [] ∧
    cacheTimestamps (processFeed timeAsUtc initListener c8Feed).2 "intraday_bars:AAPL"
      = [1, 2, 3] ∧
    ((processFeed timeAsUtc initListener c8Feed).2.filter isPublishEvent).length = 1 ∧
    logCount (processFeed timeAsUtc initListener c8Feed).2 "AAPL" = 1 := by
  refine ⟨rfl, rfl, rfl, rfl⟩

/-! ### Client pagination claims -/

/-- C3: after a successful `fetchAndPrependDataChunk` that returned at
least one candle, the stored `chartCurrentOffset` equals the offset the
server returned — not the offset the client requested — and a
server-returned offset of 0 marks the window exhausted. -/
theorem c3_offset_trusts_server (s : ClientState) (off : Int) (candles : List Candle)
    (hoff : ¬ s.chartCurrentOffset - DATA_CHUNK_SIZE < 0)
    (hne : candles ≠ []) :
    (fetchAndPrependDataChunk s (ChunkResult.success off candles)).state.chartCurrentOffset
      = off ∧
    (off = 0 →
      (fetchAndPrependDataChunk s (ChunkResult.success off candles)).state.allDataLoaded
        = true) := by
  have hlen : 0 < candles.length := List.length_pos.mpr hne
  have hoff2 : ¬ s.chartCurrentOffset < DATA_CHUNK_SIZE := fun hlt => hoff (by omega)
  constructor
  · simp [fetchAndPrependDataChunk, hoff2, hlen]
  · intro h0
    simp [fetchAndPrependDataChunk, hoff2, hlen, h0]

/-- Witness for C3: the client holds offset 10000 and so requests offset
5000; the server responds with offset 0, and the client stores 0 and
sets `allDataLoaded`. -/
theorem c3_witness :
    (¬ baseClient.chartCurrentOffset - DATA_CHUNK_SIZE < 0) ∧ ([candleAt 1] ≠ []) ∧
    ((fetchAndPrependDataChunk baseClient
        (ChunkResult.success 0 [candleAt 1])).state.chartCurrentOffset = 0 ∧
     ((0 : Int) = 0 →
       (fetchAndPrependDataChunk baseClient
         (ChunkResult.success 0 [candleAt 1])).state.allDataLoaded = true)) :=
  ⟨by decide, by decide,
   c3_offset_trusts_server baseClient 0 [candleAt 1] (by decide) (by decide)⟩

/-- C5: when `chartCurrentOffset − DATA_CHUNK_SIZE` is negative,
`fetchAndPrependDataChunk` marks the window exhausted and returns with
no network request, no error, and the state otherwise untouched. -/
theorem c5_negative_offset_terminal_no_network (s : ClientState) (server : ChunkResult)
    (h : s.chartCurrentOffset - DATA_CHUNK_SIZE < 0) :
    fetchAndPrependDataChunk s server =
      ⟨{ s with allDataLoaded := true }, [], 0, []⟩ := by
  have h2 : s.chartCurrentOffset < DATA_CHUNK_SIZE := by omega
  simp [fetchAndPrependDataChunk, h2]

/-- Witness for C5 at offset 3000: 3000 − 5000 < 0, so the call is the
terminal no-op that only sets `allDataLoaded`. -/
theorem c5_witness :
    ({ baseClient with chartCurrentOffset := 3000 }.chartCurrentOffset
        - DATA_CHUNK_SIZE < 0) ∧
    fetchAndPrependDataChunk { baseClient with chartCurrentOffset := 3000 }
        (ChunkResult.success 0 [candleAt 1]) =
      ⟨{ baseClient with chartCurrentOffset := 3000, allDataLoaded := true }, [], 0, []⟩ :=
  ⟨by decide,
   c5_negative_offset_terminal_no_network
     { baseClient with chartCurrentOffset := 3000 }
     (ChunkResult.success 0 [candleAt 1]) (by decide)⟩

/-- C4 is false: `loadInitialChart` never tests `currentlyFetching`; in a
state where a previous initial load set the flag and has not cleared it,
a second invocation still issues its initial-history fetch. -/
theorem c4_counterexample_load_initial_not_guarded :
    { baseClient with currentlyFetching := true }.currentlyFetching = true ∧
    (loadInitialChart { baseClient with currentlyFetching := true }
      (InitialResult.failure "boom")).initialRequests = 1 := by
  refine ⟨rfl, rfl⟩

/-- C4 amended: the `currentlyFetching` flag guards only the
scroll-triggered chunk path — while the flag is set the visible-range
handler never reaches `fetchAndPrependDataChunk` — but `loadInitialChart`
itself checks only the session token and starts its fetch regardless of
the flag, so overlapping initial loads are not prevented. -/
theorem c4_amended_flag_guards_only_chunk_path (s : ClientState)
    (vr : Option (Int × Int)) (server : ChunkResult) (initial : InitialResult)
    (hflag : s.currentlyFetching = true) :
    onVisibleRangeChange s vr server = noOutcome s ∧
    (jsTruthyStr s.sessionToken = true →
      (loadInitialChart s initial).initialRequests = 1) := by
  constructor
  · cases vr with
    | none => rfl
    | some p => simp [onVisibleRangeChange, hflag]
  · intro htok
    cases initial with
    | failure msg => simp [loadInitialChart, htok]
    | success resp =>
      by_cases hbad : jsTruthyStr resp.request_id = false ∨ resp.candles = [] <;>
        simp [loadInitialChart, htok, hbad]

/-- Witness for the amended C4: with the flag set, a scroll near the
oldest bar is a no-op, while `loadInitialChart` still issues a fetch. -/
theorem c4_amended_witness :
    { baseClient with currentlyFetching := true }.currentlyFetching = true ∧
    (onVisibleRangeChange { baseClient with currentlyFetching := true }
        (some (3, 50)) (ChunkResult.success 0 [candleAt 1]) =
      noOutcome { baseClient with currentlyFetching := true } ∧
     (jsTruthyStr { baseClient with currentlyFetching := true }.sessionToken = true →
       (loadInitialChart { baseClient with currentlyFetching := true }
         (InitialResult.failure "boom")).initialRequests = 1)) :=
  ⟨rfl,
   c4_amended_flag_guards_only_chunk_path { baseClient with currentlyFetching := true }
     (some (3, 50)) (ChunkResult.success 0 [candleAt 1])
     (InitialResult.failure "boom") rfl⟩

/-! ### Live-connection claims -/

/-- C10: a `connectToLiveDataFeed` call refused for an empty timezone
still tears the previous connection down first: the old socket's close
is recorded and the socket reference is null afterwards. -/
theorem c10_refused_connect_tears_down (ls : LiveState) (sid : Nat)
    (h : ls.socket = some sid) :
    (connectToLiveDataFeed ls "").live.socket = none ∧
    sid ∈ (connectToLiveDataFeed ls "").live.closedSockets ∧
    (connectToLiveDataFeed ls "").refused = true := by
  refine ⟨?_, ?_, ?_⟩ <;>
    simp [connectToLiveDataFeed, disconnectFromLiveDataFeed, h]

/-- Witness for C10 at a state holding socket 7. -/
theorem c10_witness :
    liveWith7.socket = some 7 ∧
    ((connectToLiveDataFeed liveWith7 "").live.socket = none ∧
     7 ∈ (connectToLiveDataFeed liveWith7 "").live.closedSockets ∧
     (connectToLiveDataFeed liveWith7 "").refused = true) :=
  ⟨rfl, c10_refused_connect_tears_down liveWith7 7 rfl⟩

/-! ### Frame property of the incremental merge path -/

/-- C9: any number of incremental `current_bar` messages mutate only the
series objects and the data summary; the `allChartData` and
`allVolumeData` buffers — and with them the `lastHistoricalTime`
threshold of the backfill filter — and every pagination field are left
unchanged. -/
theorem c9_incremental_preserves_buffers (s : ClientState) (cbs : List Candle) :
    (applyIncrementals s cbs).allChartData = s.allChartData ∧
    (applyIncrementals s cbs).allVolumeData = s.allVolumeData ∧
    lastTime (applyIncrementals s cbs).allChartData = lastTime s.allChartData ∧
    (applyIncrementals s cbs).sessionToken = s.sessionToken ∧
    (applyIncrementals s cbs).chartRequestId = s.chartRequestId ∧
    (applyIncrementals s cbs).chartCurrentOffset = s.chartCurrentOffset ∧
    (applyIncrementals s cbs).allDataLoaded = s.allDataLoaded ∧
    (applyIncrementals s cbs).currentlyFetching = s.currentlyFetching ∧
    (applyIncrementals s cbs).volUpColor = s.volUpColor ∧
    (applyIncrementals s cbs).volDownColor = s.volDownColor := by
  induction cbs generalizing s with
  | nil => exact ⟨rfl, rfl, rfl, rfl, rfl, rfl, rfl, rfl, rfl, rfl⟩
  | cons cb cbs ih =>
    have hstep : applyIncrementals s (cb :: cbs) =
        applyIncrementals (handleLiveMessage s (LiveMsg.incremental cb)) cbs := rfl
    rw [hstep]
    exact ih (handleLiveMessage s (LiveMsg.incremental cb))

/-! ### Lemmas about sorted integer lists and their last elements -/

theorem lastTime_eq_lastD (l : List ChartPoint) :
    lastTime l = lastD (l.map ChartPoint.time) := by
  simp only [lastTime, lastD, List.getLast?_map]
  cases l.getLast? <;> rfl

theorem lastD_eq_getLast (l : List Int) (h : l ≠ []) : lastD l = l.getLast h := by
  simp [lastD, List.getLast?_eq_getLast l h]

theorem mem_le_lastD (l : List Int) (hs : l.Pairwise (· < ·)) :
    ∀ x ∈ l, x ≤ lastD l := by
  intro x hx
  have hne : l ≠ [] := List.ne_nil_of_mem hx
  have hdec := List.dropLast_append_getLast hne
  rw [lastD_eq_getLast l hne]
  have hs2 : (l.dropLast ++ [l.getLast hne]).Pairwise (· < ·) := by rw [hdec]; exact hs
  have hcross := (List.pairwise_append.mp hs2).2.2
  have hx2 : x ∈ l.dropLast ++ [l.getLast hne] := by rw [hdec]; exact hx
  rcases List.mem_append.mp hx2 with h1 | h1
  · exact le_of_lt (hcross x h1 (l.getLast hne) (List.mem_singleton_self _))
  · exact le_of_eq (List.mem_singleton.mp h1)

theorem lastD_mem (l : List Int) (hne : l ≠ []) : lastD l ∈ l := by
  rw [lastD_eq_getLast l hne]
  exact List.getLast_mem hne

theorem lastD_cons_of_ne_nil (a : Int) (l : List Int) (h : l ≠ []) :
    lastD (a :: l) = lastD l := by
  cases l with
  | nil => exact absurd rfl h
  | cons b t => simp [lastD, List.getLast?_cons_cons]

theorem lastD_append_of_ne_nil (a b : List Int) (hb : b ≠ []) :
    lastD (a ++ b) = lastD b := by
  rw [lastD, List.getLast?_append, List.getLast?_eq_getLast b hb, lastD_eq_getLast b hb]
  rfl

theorem lastD_filter (p : Int → Bool) (l : List Int) (hne : l ≠ [])
    (hp : p (lastD l) = true) : lastD (l.filter p) = lastD l := by
  induction l with
  | nil => exact absurd rfl hne
  | cons a t ih =>
    by_cases ht : t = []
    · subst ht
      have hpa : p a = true := by simpa [lastD] using hp
      simp [List.filter_cons, hpa]
    · have hlast : lastD (a :: t) = lastD t := lastD_cons_of_ne_nil a t ht
      rw [hlast] at hp ⊢
      have hmem : lastD t ∈ t.filter p := List.mem_filter.mpr ⟨lastD_mem t ht, hp⟩
      have hfne : t.filter p ≠ [] := List.ne_nil_of_mem hmem
      rw [List.filter_cons]
      by_cases hpa : p a = true
      · rw [if_pos hpa, lastD_cons_of_ne_nil _ _ hfne]
        exact ih ht hp
      · rw [if_neg (by simp [hpa])]
        exact ih ht hp

theorem map_time_filter (L : Int) (data : List Candle) :
    ((data.map toChartPoint).filter fun d => decide (L < d.time)).map ChartPoint.time
      = (data.map Candle.unix_timestamp).filter fun t => decide (L < t) := by
  induction data with
  | nil => rfl
  | cons c t ih =>
    simp only [List.map_cons, List.filter_cons]
    by_cases hc : L < c.unix_timestamp
    · simp [toChartPoint, hc, ih]
    · simp [toChartPoint, hc, ih]

theorem pairwise_filter_lt (p : Int → Bool) (l : List Int)
    (h : l.Pairwise (· < ·)) : (l.filter p).Pairwise (· < ·) :=
  List.Pairwise.sublist (List.filter_sublist l) h

/-- The backfill merge always leaves `allChartData` equal to the old
buffer followed by the strictly-newer survivors of the burst (for the
empty-burst and no-survivor branches the appended part is `[]`). -/
theorem backfill_allChartData (s : ClientState) (data : List Candle) :
    (handleLiveMessage s (LiveMsg.backfill data)).allChartData
      = s.allChartData ++ ((data.map toChartPoint).filter fun d =>
          decide (lastTime s.allChartData < d.time)) := by
  by_cases hd0 : data = []
  · subst hd0
    simp [handleLiveMessage]
  · have hlen : ¬ data.length = 0 := fun h => hd0 (List.length_eq_zero.mp h)
    by_cases hN : ((data.map toChartPoint).filter fun d =>
        decide (lastTime s.allChartData < d.time)) = []
    · simp [handleLiveMessage, hlen, hN]
    · have hpos : 0 < ((data.map toChartPoint).filter fun d =>
          decide (lastTime s.allChartData < d.time)).length :=
        List.length_pos.mpr hN
      simp [handleLiveMessage, hlen, hpos]

/-- A backfill burst with no strictly-newer survivor leaves the whole
client state untouched. -/
theorem backfill_noop (s : ClientState) (data : List Candle)
    (h : ((data.map toChartPoint).filter fun d =>
        decide (lastTime s.allChartData < d.time)) = []) :
    handleLiveMessage s (LiveMsg.backfill data) = s := by
  by_cases hd0 : data = []
  · subst hd0; rfl
  · have hlen : ¬ data.length = 0 := fun h2 => hd0 (List.length_eq_zero.mp h2)
    simp [handleLiveMessage, hlen, h]

/-- C6: the backfill-burst merge keeps only bars strictly newer than the
buffer's last timestamp, so for a strictly-increasing burst applied to a
strictly-increasing buffer the merged buffer stays strictly increasing
(no duplicated timestamp), and applying the same burst a second time is
the identity. -/
theorem c6_backfill_merge_idempotent (s : ClientState) (data : List Candle)
    (hbuf : (s.allChartData.map ChartPoint.time).Pairwise (· < ·))
    (hdata : (data.map Candle.unix_timestamp).Pairwise (· < ·)) :
    ((handleLiveMessage s (LiveMsg.backfill data)).allChartData.map
        ChartPoint.time).Pairwise (· < ·) ∧
    ((handleLiveMessage s (LiveMsg.backfill data)).allChartData.map
        ChartPoint.time).Nodup ∧
    handleLiveMessage (handleLiveMessage s (LiveMsg.backfill data)) (LiveMsg.backfill data)
      = handleLiveMessage s (LiveMsg.backfill data) := by
  have hchart := backfill_allChartData s data
  have hsorted1 : ((handleLiveMessage s (LiveMsg.backfill data)).allChartData.map
      ChartPoint.time).Pairwise (· < ·) := by
    rw [hchart, List.map_append, map_time_filter]
    refine List.pairwise_append.mpr ⟨hbuf, pairwise_filter_lt _ _ hdata, ?_⟩
    intro a ha b hb
    have hb2 := List.mem_filter.mp hb
    have hbgt : lastTime s.allChartData < b := of_decide_eq_true hb2.2
    have hale : a ≤ lastD (s.allChartData.map ChartPoint.time) :=
      mem_le_lastD _ hbuf a ha
    rw [← lastTime_eq_lastD] at hale
    omega
  refine ⟨hsorted1, hsorted1.imp (fun h => ne_of_lt h), ?_⟩
  apply backfill_noop
  rw [hchart]
  by_cases hN : ((data.map toChartPoint).filter fun d =>
      decide (lastTime s.allChartData < d.time)) = []
  · rw [hN, List.append_nil]
    exact hN
  · have hts : data.map Candle.unix_timestamp ≠ [] := by
      intro h
      exact hN (by simp [List.map_eq_nil_iff.mp h])
    have hNt_ne : ((data.map Candle.unix_timestamp).filter fun t =>
        decide (lastTime s.allChartData < t)) ≠ [] := by
      intro hnil
      apply hN
      have hmt := map_time_filter (lastTime s.allChartData) data
      rw [hnil] at hmt
      exact List.map_eq_nil_iff.mp hmt
    have hLp : lastTime (s.allChartData ++ ((data.map toChartPoint).filter fun d =>
        decide (lastTime s.allChartData < d.time)))
          = lastD (data.map Candle.unix_timestamp) := by
      rw [lastTime_eq_lastD, List.map_append, map_time_filter,
        lastD_append_of_ne_nil _ _ hNt_ne]
      apply lastD_filter _ _ hts
      apply decide_eq_true
      have hmem := lastD_mem _ hNt_ne
      have h1 := List.mem_filter.mp hmem
      have h2 : lastTime s.allChartData <
          lastD ((data.map Candle.unix_timestamp).filter fun t =>
            decide (lastTime s.allChartData < t)) := of_decide_eq_true h1.2
      have h3 := mem_le_lastD _ hdata _ h1.1
      omega
    rw [List.filter_eq_nil_iff]
    intro d hd hdec
    have hlt := of_decide_eq_true hdec
    rw [hLp] at hlt
    rcases List.mem_map.mp hd with ⟨c, hc, rfl⟩
    have hle : c.unix_timestamp ≤ lastD (data.map Candle.unix_timestamp) :=
      mem_le_lastD _ hdata _ (List.mem_map.mpr ⟨c, hc, rfl⟩)
    have hto : (toChartPoint c).time = c.unix_timestamp := rfl
    rw [hto] at hlt
    omega

/-! ### The update-or-append semantics of the incremental merge -/

theorem seriesUpdate_replace {α : Type} (timeOf : α → Int) (data : List α) (pt : α)
    (hne : data ≠ []) (h : timeOf pt = timeOf (data.getLast hne)) :
    seriesUpdate timeOf data pt = data.dropLast ++ [pt] := by
  simp [seriesUpdate, List.getLast?_eq_getLast data hne, h]

theorem seriesUpdate_append {α : Type} (timeOf : α → Int) (data : List α) (pt : α)
    (hne : data ≠ []) (h : timeOf (data.getLast hne) < timeOf pt) :
    seriesUpdate timeOf data pt = data ++ [pt] := by
  have hne2 : timeOf pt ≠ timeOf (data.getLast hne) := ne_of_gt h
  simp [seriesUpdate, List.getLast?_eq_getLast data hne, hne2, h]

theorem getLast_time_chart (m : List ChartPoint) (h : m ≠ []) :
    (m.getLast h).time = lastD (m.map ChartPoint.time) := by
  rw [lastD, List.getLast?_map, List.getLast?_eq_getLast m h]
  rfl

theorem getLast_time_vol (v : List VolumePoint) (h : v ≠ []) :
    (v.getLast h).time = lastD (v.map VolumePoint.time) := by
  rw [lastD, List.getLast?_map, List.getLast?_eq_getLast v h]
  rfl

/-- C7: an incremental `current_bar` is merged into the (nonempty,
strictly-increasing, aligned) series with update-or-append semantics:
a bar whose timestamp equals the last entry's replaces that entry in
place, keeping the length; a strictly newer bar is appended; in both
cases the timestamps stay strictly increasing and the price and volume
series stay aligned timestamp-for-timestamp. -/
theorem c7_incremental_update_or_append (s : ClientState) (cb : Candle)
    (halign : s.mainSeriesData.map ChartPoint.time
      = s.volumeSeriesData.map VolumePoint.time)
    (hsorted : (s.mainSeriesData.map ChartPoint.time).Pairwise (· < ·))
    (hne : s.mainSeriesData ≠ [])
    (hrecent : lastTime s.mainSeriesData ≤ cb.unix_timestamp) :
    (cb.unix_timestamp = lastTime s.mainSeriesData →
      (handleLiveMessage s (LiveMsg.incremental cb)).mainSeriesData
        = s.mainSeriesData.dropLast ++ [toChartPoint cb] ∧
      (handleLiveMessage s (LiveMsg.incremental cb)).mainSeriesData.length
        = s.mainSeriesData.length) ∧
    (lastTime s.mainSeriesData < cb.unix_timestamp →
      (handleLiveMessage s (LiveMsg.incremental cb)).mainSeriesData
        = s.mainSeriesData ++ [toChartPoint cb]) ∧
    ((handleLiveMessage s (LiveMsg.incremental cb)).mainSeriesData.map
        ChartPoint.time).Pairwise (· < ·) ∧
    (handleLiveMessage s (LiveMsg.incremental cb)).mainSeriesData.map ChartPoint.time
      = (handleLiveMessage s (LiveMsg.incremental cb)).volumeSeriesData.map
          VolumePoint.time := by
  have hmain : (handleLiveMessage s (LiveMsg.incremental cb)).mainSeriesData
      = seriesUpdate ChartPoint.time s.mainSeriesData (toChartPoint cb) := rfl
  have hvol : (handleLiveMessage s (LiveMsg.incremental cb)).volumeSeriesData
      = seriesUpdate VolumePoint.time s.volumeSeriesData
          (toVolumePoint s.volUpColor s.volDownColor cb) := rfl
  have hmtne : s.mainSeriesData.map ChartPoint.time ≠ [] := by
    intro h
    exact hne (List.map_eq_nil_iff.mp h)
  have hvtne : s.volumeSeriesData.map VolumePoint.time ≠ [] := by
    rw [← halign]
    exact hmtne
  have hvne : s.volumeSeriesData ≠ [] := by
    intro h
    exact hvtne (by rw [h]; rfl)
  have hmlast : (s.mainSeriesData.getLast hne).time = lastTime s.mainSeriesData := by
    rw [getLast_time_chart s.mainSeriesData hne, ← lastTime_eq_lastD]
  have hvlast : (s.volumeSeriesData.getLast hvne).time = lastTime s.mainSeriesData := by
    rw [getLast_time_vol s.volumeSeriesData hvne, ← halign, ← lastTime_eq_lastD]
  rcases lt_or_eq_of_le hrecent with hlt | heq
  · -- strictly newer incoming bar: append on both series
    have hm := seriesUpdate_append ChartPoint.time s.mainSeriesData (toChartPoint cb) hne
      (by rw [hmlast]; exact hlt)
    have hv := seriesUpdate_append VolumePoint.time s.volumeSeriesData
      (toVolumePoint s.volUpColor s.volDownColor cb) hvne
      (by rw [hvlast]; exact hlt)
    refine ⟨fun habs => absurd habs (ne_of_gt hlt), fun _ => by rw [hmain, hm], ?_, ?_⟩
    · rw [hmain, hm, List.map_append]
      refine List.pairwise_append.mpr ⟨hsorted, List.pairwise_singleton _ _, ?_⟩
      intro a ha b hb
      rw [List.mem_singleton.mp hb]
      have hale : a ≤ lastD (s.mainSeriesData.map ChartPoint.time) :=
        mem_le_lastD _ hsorted a ha
      rw [← lastTime_eq_lastD] at hale
      have hbt : (toChartPoint cb).time = cb.unix_timestamp := rfl
      rw [hbt]
      omega
    · rw [hmain, hvol, hm, hv, List.map_append, List.map_append, halign]
      rfl
  · -- equal timestamps: in-place replacement of the last entry
    have hm := seriesUpdate_replace ChartPoint.time s.mainSeriesData (toChartPoint cb) hne
      (by rw [hmlast]; exact heq.symm)
    have hv := seriesUpdate_replace VolumePoint.time s.volumeSeriesData
      (toVolumePoint s.volUpColor s.volDownColor cb) hvne
      (by rw [hvlast]; exact heq.symm)
    have hlen : (s.mainSeriesData.dropLast ++ [toChartPoint cb]).length
        = s.mainSeriesData.length := by
      have hpos : 0 < s.mainSeriesData.length := List.length_pos.mpr hne
      simp only [List.length_append, List.length_dropLast, List.length_singleton]
      omega
    have hptc : (toChartPoint cb).time
        = (s.mainSeriesData.map ChartPoint.time).getLast hmtne := by
      show cb.unix_timestamp = (s.mainSeriesData.map ChartPoint.time).getLast hmtne
      rw [← lastD_eq_getLast _ hmtne, ← lastTime_eq_lastD]
      exact heq.symm
    have hptv : (toVolumePoint s.volUpColor s.volDownColor cb).time
        = (s.volumeSeriesData.map VolumePoint.time).getLast hvtne := by
      show cb.unix_timestamp = (s.volumeSeriesData.map VolumePoint.time).getLast hvtne
      have h2 : lastD (s.volumeSeriesData.map VolumePoint.time)
          = lastTime s.mainSeriesData := by
        rw [← halign, ← lastTime_eq_lastD]
      rw [← lastD_eq_getLast _ hvtne, h2]
      exact heq.symm
    have hmapeq : (s.mainSeriesData.dropLast ++ [toChartPoint cb]).map ChartPoint.time
        = s.mainSeriesData.map ChartPoint.time := by
      rw [List.map_append, List.map_dropLast, List.map_singleton, hptc,
        List.dropLast_append_getLast hmtne]
    have hvmapeq : (s.volumeSeriesData.dropLast ++
          [toVolumePoint s.volUpColor s.volDownColor cb]).map VolumePoint.time
        = s.volumeSeriesData.map VolumePoint.time := by
      rw [List.map_append, List.map_dropLast, List.map_singleton, hptv,
        List.dropLast_append_getLast hvtne]
    refine ⟨fun _ => ⟨by rw [hmain, hm], by rw [hmain, hm]; exact hlen⟩,
      fun habs => absurd heq (ne_of_lt habs), ?_, ?_⟩
    · rw [hmain, hm, hmapeq]
      exact hsorted
    · rw [hmain, hvol, hm, hv, hmapeq, hvmapeq]
      exact halign

/-- Witness for C6: an empty buffer receives the two-bar burst at
t = 1, 2; the merged buffer is strictly increasing, duplicate-free, and
a second application of the same burst changes nothing. -/
theorem c6_witness :
    ((baseClient.allChartData.map ChartPoint.time).Pairwise (· < ·) ∧
     (burstData.map Candle.unix_timestamp).Pairwise (· < ·)) ∧
    (((handleLiveMessage baseClient (LiveMsg.backfill burstData)).allChartData.map
        ChartPoint.time).Pairwise (· < ·) ∧
     ((handleLiveMessage baseClient (LiveMsg.backfill burstData)).allChartData.map
        ChartPoint.time).Nodup ∧
     handleLiveMessage (handleLiveMessage baseClient (LiveMsg.backfill burstData))
         (LiveMsg.backfill burstData)
       = handleLiveMessage baseClient (LiveMsg.backfill burstData)) :=
  ⟨⟨by decide, by decide⟩,
   c6_backfill_merge_idempotent baseClient burstData (by decide) (by decide)⟩

/-- Witness for C7: a series whose last bar sits at t = 100 receives an
incremental bar at t = 105; the theorem applies with all hypotheses
discharged at this concrete input. -/
theorem c7_witness :
    (seriesAt100.mainSeriesData.map ChartPoint.time
        = seriesAt100.volumeSeriesData.map VolumePoint.time ∧
     (seriesAt100.mainSeriesData.map ChartPoint.time).Pairwise (· < ·) ∧
     seriesAt100.mainSeriesData ≠ [] ∧
     lastTime seriesAt100.mainSeriesData ≤ (candleAt 105).unix_timestamp) ∧
    (((candleAt 105).unix_timestamp = lastTime seriesAt100.mainSeriesData →
       (handleLiveMessage seriesAt100 (LiveMsg.incremental (candleAt 105))).mainSeriesData
         = seriesAt100.mainSeriesData.dropLast ++ [toChartPoint (candleAt 105)] ∧
       (handleLiveMessage seriesAt100
           (LiveMsg.incremental (candleAt 105))).mainSeriesData.length
         = seriesAt100.mainSeriesData.length) ∧
     (lastTime seriesAt100.mainSeriesData < (candleAt 105).unix_timestamp →
       (handleLiveMessage seriesAt100 (LiveMsg.incremental (candleAt 105))).mainSeriesData
         = seriesAt100.mainSeriesData ++ [toChartPoint (candleAt 105)]) ∧
     ((handleLiveMessage seriesAt100
         (LiveMsg.incremental (candleAt 105))).mainSeriesData.map
           ChartPoint.time).Pairwise (· < ·) ∧
     (handleLiveMessage seriesAt100
         (LiveMsg.incremental (candleAt 105))).mainSeriesData.map ChartPoint.time
       = (handleLiveMessage seriesAt100
           (LiveMsg.incremental (candleAt 105))).volumeSeriesData.map VolumePoint.time) :=
  ⟨⟨by decide, by decide, by decide, by decide⟩,
   c7_incremental_update_or_append seriesAt100 (candleAt 105)
     (by decide) (by decide) (by decide) (by decide)⟩

end TP
